import Mathlib

/-!
Verification of the streaming LLM client core of `sveltekit-ai`.

The development shallowly embeds the client-side streaming code:

* `src/lib/browser/streaming/streamingText.ts`
  - `streamLLMResponse` (callback surface with retry/backoff), and
  - `streamLLMTextChunks` (async-generator surface);
* the `TextStreamer` class and `exponentialJitterBackoff` of
  `src/lib/apps/test/StreamingLLMTextChunks.svelte`
  (frame parser `parseSSEChunks`, tokenizer `tokenize`, pacing queue
  `processQueue`/`enqueue`, session loop `start`, and `cancel`).

Buffers and strings are embedded as `List Char`; the JavaScript string
operations used by the source (`indexOf`, `slice`, `trim`, `startsWith`)
become the explicit list functions below.  `JSON.parse` is embedded as a
computable recursive-descent parser `jsonParse` over a `Json` value type.
-/

/-- Characters of a string literal (JS strings are embedded as `List Char`). -/
def strL (s : String) : List Char := s.toList

/-- JS `haystack.startsWith(pat)` at position 0, on char lists.
The first argument is the haystack, the second the pattern. -/
def startsWithList : List Char → List Char → Bool
  | _, [] => true
  | [], _ :: _ => false
  | c :: cs, p :: ps => c == p && startsWithList cs ps

/-- JS `haystack.indexOf(pat)` combined with the two `slice` calls the source
always performs with it: `some (before, after)` splits the haystack around the
first occurrence of `pat` (`before = slice(0, idx)`,
`after = slice(idx + pat.length)`); `none` means `indexOf` returned `-1`.
(The source never searches for an empty pattern.) -/
def splitOnFirst (pat : List Char) : List Char → Option (List Char × List Char)
  | [] => none
  | c :: cs =>
    if startsWithList (c :: cs) pat then
      some ([], (c :: cs).drop pat.length)
    else
      match splitOnFirst pat cs with
      | some (a, r) => some (c :: a, r)
      | none => none

/-- JS `String.prototype.trim`: strip whitespace from both ends.
(`Char.isWhitespace` covers the ASCII whitespace the wire format uses.) -/
def jsTrim (l : List Char) : List Char :=
  ((l.dropWhile Char.isWhitespace).reverse.dropWhile Char.isWhitespace).reverse

theorem startsWithList_nil (l : List Char) : startsWithList l [] = true := by
  cases l <;> rfl

theorem startsWithList_length {l pat : List Char}
    (h : startsWithList l pat = true) : pat.length ≤ l.length := by
  induction pat generalizing l with
  | nil => simp
  | cons p ps ih =>
    cases l with
    | nil => simp [startsWithList] at h
    | cons c cs =>
      simp only [startsWithList, Bool.and_eq_true] at h
      simpa [List.length_cons] using Nat.succ_le_succ (ih h.2)

theorem startsWithList_append_of_le {l pat : List Char} (inc : List Char)
    (h : pat.length ≤ l.length) :
    startsWithList (l ++ inc) pat = startsWithList l pat := by
  induction pat generalizing l with
  | nil => simp [startsWithList_nil]
  | cons p ps ih =>
    cases l with
    | nil => simp at h
    | cons c cs =>
      have hle : ps.length ≤ cs.length := by
        simpa [List.length_cons, Nat.succ_le_succ_iff] using h
      simp only [List.cons_append, startsWithList, List.append_eq, ih hle]

theorem splitOnFirst_length {pat l a r : List Char}
    (h : splitOnFirst pat l = some (a, r)) :
    l.length = a.length + pat.length + r.length := by
  induction l generalizing a with
  | nil => simp [splitOnFirst] at h
  | cons c cs ih =>
    rw [splitOnFirst] at h
    by_cases hs : startsWithList (c :: cs) pat = true
    · rw [if_pos hs] at h
      have hlen := startsWithList_length hs
      injection h with h'
      injection h' with ha hr
      subst ha; subst hr
      simp only [List.length_nil, List.length_drop, Nat.zero_add]
      omega
    · rw [if_neg hs] at h
      cases h2 : splitOnFirst pat cs with
      | none => rw [h2] at h; exact absurd h (by simp)
      | some p =>
        obtain ⟨a', r'⟩ := p
        rw [h2] at h
        injection h with h'
        injection h' with ha hr
        subst ha; subst hr
        have := ih h2
        simp only [List.length_cons]
        omega

theorem splitOnFirst_append {pat b a r : List Char} (inc : List Char)
    (h : splitOnFirst pat b = some (a, r)) :
    splitOnFirst pat (b ++ inc) = some (a, r ++ inc) := by
  induction b generalizing a with
  | nil => simp [splitOnFirst] at h
  | cons c cs ih =>
    rw [splitOnFirst] at h
    by_cases hs : startsWithList (c :: cs) pat = true
    · rw [if_pos hs] at h
      injection h with h'
      injection h' with ha hr
      subst ha; subst hr
      have hlen := startsWithList_length hs
      have hs2 : startsWithList (c :: cs ++ inc) pat = true := by
        rw [startsWithList_append_of_le inc hlen]; exact hs
      rw [List.cons_append, splitOnFirst, ← List.cons_append, if_pos hs2,
        List.drop_append_of_le_length hlen]
    · rw [if_neg hs] at h
      cases h2 : splitOnFirst pat cs with
      | none => rw [h2] at h; exact absurd h (by simp)
      | some p =>
        obtain ⟨a', r'⟩ := p
        rw [h2] at h
        injection h with h'
        injection h' with ha hr
        subst ha; subst hr
        have hlen : pat.length ≤ cs.length := by
          have := splitOnFirst_length h2; omega
        have hs' : startsWithList (c :: cs ++ inc) pat = false := by
          rw [startsWithList_append_of_le inc (le_trans hlen (by simp))]
          simpa using hs
        rw [List.cons_append, splitOnFirst, ← List.cons_append, hs']
        simp only [Bool.false_eq_true, if_false, List.append_eq, ih h2]

/-- The frame delimiter: a blank line, i.e. the two-character sequence
searched for by `buffer.indexOf('\n\n')` in all three stream consumers. -/
def frameDelim : List Char := ['\n', '\n']

/-- Fuel-indexed worker for `extractFrames`; the fuel only bounds the loop and
is always sufficient at the call site (each iteration removes the delimiter's
two characters from the buffer). -/
def extractFramesGo : Nat → List Char → List (List Char) × List Char
  | 0, b => ([], b)
  | fuel + 1, b =>
    match splitOnFirst frameDelim b with
    | none => ([], b)
    | some (seg, rest) =>
      let p := extractFramesGo fuel rest
      (seg :: p.1, p.2)

/-- The delimiter-splitting loop shared (verbatim) by `streamLLMResponse`,
`streamLLMTextChunks` and `TextStreamer.parseSSEChunks`:
`while ((idx = buffer.indexOf('\n\n')) !== -1) { seg = buffer.slice(0, idx);
buffer = buffer.slice(idx + 2); ... }`.  Returns the extracted raw segments
(in order, delimiter removed) and the remaining buffer. -/
def extractFrames (b : List Char) : List (List Char) × List Char :=
  extractFramesGo b.length b

theorem extractFramesGo_fuel {fuel fuel' : Nat} {b : List Char}
    (h : b.length ≤ fuel) (h' : b.length ≤ fuel') :
    extractFramesGo fuel b = extractFramesGo fuel' b := by
  induction fuel generalizing fuel' b with
  | zero =>
    have hb : b = [] := List.eq_nil_of_length_eq_zero (Nat.le_zero.mp h)
    subst hb
    cases fuel' with
    | zero => rfl
    | succ f => simp [extractFramesGo, splitOnFirst]
  | succ f ih =>
    cases fuel' with
    | zero =>
      have hb : b = [] := List.eq_nil_of_length_eq_zero (Nat.le_zero.mp h')
      subst hb
      simp [extractFramesGo, splitOnFirst]
    | succ f' =>
      simp only [extractFramesGo]
      cases hs : splitOnFirst frameDelim b with
      | none => rfl
      | some p =>
        obtain ⟨seg, rest⟩ := p
        have hlen := splitOnFirst_length hs
        have h1 : rest.length ≤ f := by simp [frameDelim] at hlen; omega
        have h2 : rest.length ≤ f' := by simp [frameDelim] at hlen; omega
        simp [ih h1 h2]

theorem extractFrames_of_none {b : List Char}
    (h : splitOnFirst frameDelim b = none) : extractFrames b = ([], b) := by
  cases hb : b.length with
  | zero => simp [extractFrames, hb, extractFramesGo]
  | succ n => simp [extractFrames, hb, extractFramesGo, h]

theorem extractFrames_of_some {b seg rest : List Char}
    (h : splitOnFirst frameDelim b = some (seg, rest)) :
    extractFrames b = (seg :: (extractFrames rest).1, (extractFrames rest).2) := by
  have hlen := splitOnFirst_length h
  have hb : b.length = seg.length + 2 + rest.length := by
    simpa [frameDelim] using hlen
  rw [extractFrames, hb]
  have : seg.length + 2 + rest.length = (seg.length + 1 + rest.length) + 1 := by omega
  rw [this]
  simp only [extractFramesGo, h]
  rw [@extractFramesGo_fuel (seg.length + 1 + rest.length) rest.length rest (by omega) (le_refl _)]
  rfl

theorem extractFrames_rest_no_delim (b : List Char) :
    splitOnFirst frameDelim (extractFrames b).2 = none := by
  suffices h : ∀ n (b : List Char), b.length ≤ n →
      splitOnFirst frameDelim (extractFrames b).2 = none from h b.length b (le_refl _)
  intro n
  induction n with
  | zero =>
    intro b hb
    have : b = [] := List.eq_nil_of_length_eq_zero (Nat.le_zero.mp hb)
    subst this
    rfl
  | succ n ih =>
    intro b hb
    cases hs : splitOnFirst frameDelim b with
    | none => rw [extractFrames_of_none hs]; exact hs
    | some p =>
      obtain ⟨seg, rest⟩ := p
      have hlen := splitOnFirst_length hs
      rw [extractFrames_of_some hs]
      exact ih rest (by simp [frameDelim] at hlen; omega)

theorem extractFrames_append (b inc : List Char) :
    extractFrames (b ++ inc) =
      ((extractFrames b).1 ++ (extractFrames ((extractFrames b).2 ++ inc)).1,
       (extractFrames ((extractFrames b).2 ++ inc)).2) := by
  suffices h : ∀ n (b : List Char), b.length ≤ n →
      extractFrames (b ++ inc) =
        ((extractFrames b).1 ++ (extractFrames ((extractFrames b).2 ++ inc)).1,
         (extractFrames ((extractFrames b).2 ++ inc)).2) from h b.length b (le_refl _)
  intro n
  induction n with
  | zero =>
    intro b hb
    have : b = [] := List.eq_nil_of_length_eq_zero (Nat.le_zero.mp hb)
    subst this
    have h0 : extractFrames ([] : List Char) = ([], []) := rfl
    simp [h0]
  | succ n ih =>
    intro b hb
    cases hs : splitOnFirst frameDelim b with
    | none =>
      rw [extractFrames_of_none hs]
      simp
    | some p =>
      obtain ⟨seg, rest⟩ := p
      have hlen := splitOnFirst_length hs
      rw [extractFrames_of_some hs,
        extractFrames_of_some (splitOnFirst_append inc hs),
        ih rest (by simp [frameDelim] at hlen; omega)]
      simp

/-- JSON values, as produced by `JSON.parse` in the source.  Strings are char
lists like every other embedded JS string. -/
inductive Json where
  | null
  | bool (b : Bool)
  | num (q : ℚ)
  | str (s : List Char)
  | arr (elems : List Json)
  | obj (fields : List (List Char × Json))

/-- JSON whitespace accepted between tokens by `JSON.parse`. -/
def jsonWs (c : Char) : Bool :=
  c == ' ' || c == '\t' || c == '\n' || c == '\r'

def skipWs (l : List Char) : List Char := l.dropWhile jsonWs

/-- One escape character inside a JSON string literal.  (`\uXXXX` escapes are
not modelled; none of the verified payloads use them, and rejecting them only
makes the embedded parser conservative where no claim depends on it.) -/
def escChar : Char → Option Char
  | '"' => some '"'
  | '\\' => some '\\'
  | '/' => some '/'
  | 'b' => some '\x08'
  | 'f' => some '\x0c'
  | 'n' => some '\n'
  | 'r' => some '\r'
  | 't' => some '\t'
  | _ => none

/-- Parse the remainder of a JSON string literal (the opening quote already
consumed); returns the decoded characters and the rest of the input. -/
def parseStringRest : List Char → Option (List Char × List Char)
  | [] => none
  | '"' :: r => some ([], r)
  | '\\' :: [] => none
  | '\\' :: e :: r' =>
    (match escChar e with
     | none => none
     | some ec =>
       match parseStringRest r' with
       | some (s, rest) => some (ec :: s, rest)
       | none => none)
  | c :: r =>
    if c.toNat < 32 then none
    else
      match parseStringRest r with
      | some (s, rest) => some (c :: s, rest)
      | none => none

def digitsToNat (ds : List Char) : Nat :=
  ds.foldl (fun acc d => acc * 10 + (d.toNat - '0'.toNat)) 0

/-- Parse a JSON number (integer or decimal fraction; exponent notation is not
modelled — no payload in this code base uses it). -/
def parseNumber (l : List Char) : Option (Json × List Char) :=
  let (neg, l1) : Bool × List Char :=
    match l with
    | '-' :: r => (true, r)
    | _ => (false, l)
  let ds := l1.takeWhile Char.isDigit
  let r1 := l1.dropWhile Char.isDigit
  if ds = [] then none
  else
    let intPart : ℚ := (digitsToNat ds : ℚ)
    match r1 with
    | '.' :: r2 =>
      let fs := r2.takeWhile Char.isDigit
      let r3 := r2.dropWhile Char.isDigit
      if fs = [] then none
      else
        let v : ℚ := intPart + (digitsToNat fs : ℚ) / ((10 : ℚ) ^ fs.length)
        some (.num (if neg then -v else v), r3)
    | _ => some (.num (if neg then -intPart else intPart), r1)

/-- What `parseJ` is currently parsing: a single value, the tail of an array
(elements up to and including `]`, returned as `.arr`), or the tail of an
object (members up to and including the closing brace, returned as `.obj`).
A single mode-indexed function keeps the recursion structural in the fuel. -/
inductive PMode where
  | value
  | arrTail
  | objTail

/-- Recursive-descent parser for JSON (fuel-indexed; the fuel at the call site
always suffices, it only bounds nesting plus element counts). -/
def parseJ : Nat → PMode → List Char → Option (Json × List Char)
  | 0, _, _ => none
  | fuel + 1, .value, l =>
    (match skipWs l with
     | 'n' :: 'u' :: 'l' :: 'l' :: r => some (.null, r)
     | 't' :: 'r' :: 'u' :: 'e' :: r => some (.bool true, r)
     | 'f' :: 'a' :: 'l' :: 's' :: 'e' :: r => some (.bool false, r)
     | '"' :: r =>
       (match parseStringRest r with
        | some (s, rest) => some (.str s, rest)
        | none => none)
     | '[' :: r =>
       (match skipWs r with
        | ']' :: rr => some (.arr [], rr)
        | _ => parseJ fuel .arrTail r)
     | '\x7b' :: r =>
       (match skipWs r with
        | '\x7d' :: rr => some (.obj [], rr)
        | _ => parseJ fuel .objTail r)
     | other => parseNumber other)
  | fuel + 1, .arrTail, l =>
    (match parseJ fuel .value l with
     | none => none
     | some (v, r) =>
       match skipWs r with
       | ',' :: rr =>
         (match parseJ fuel .arrTail rr with
          | some (.arr vs, rest) => some (.arr (v :: vs), rest)
          | _ => none)
       | ']' :: rr => some (.arr [v], rr)
       | _ => none)
  | fuel + 1, .objTail, l =>
    (match skipWs l with
     | '"' :: r =>
       (match parseStringRest r with
        | none => none
        | some (k, r1) =>
          match skipWs r1 with
          | ':' :: r2 =>
            (match parseJ fuel .value r2 with
             | none => none
             | some (v, r3) =>
               match skipWs r3 with
               | ',' :: r4 =>
                 (match parseJ fuel .objTail r4 with
                  | some (.obj fs, rest) => some (.obj ((k, v) :: fs), rest)
                  | _ => none)
               | '\x7d' :: r4 => some (.obj [(k, v)], r4)
               | _ => none)
          | _ => none)
     | _ => none)

/-- JS `JSON.parse`: parse one JSON value, allow trailing whitespace, reject
anything else left over.  `none` is a thrown `SyntaxError`. -/
def jsonParse (l : List Char) : Option Json :=
  match parseJ (2 * l.length + 4) .value l with
  | some (v, r) => if skipWs r = [] then some v else none
  | none => none

/-- Field access `o.k` on a parse result: `none` is JS `undefined` (also for
non-object values).  As in JS, a duplicate key keeps the *last* binding. -/
def jsGetField (j : Json) (k : List Char) : Option Json :=
  match j with
  | .obj fields => fields.foldl (fun acc kv => if kv.1 == k then some kv.2 else acc) none
  | _ => none

/-- JS truthiness of a JSON value (`NaN` cannot arise from `JSON.parse`). -/
def jsTruthy : Json → Bool
  | .null => false
  | .bool b => b
  | .num q => q != 0
  | .str s => s != []
  | .arr _ => true
  | .obj _ => true

/-- JS truthiness of a possibly-`undefined` value, e.g. `chunk?.text`. -/
def jsTruthyOpt : Option Json → Bool
  | none => false
  | some j => jsTruthy j

/-- The `text` field of a decoded chunk, read at its declared type
(`LLMChunk.text?: string` in the source): a string value or absent. -/
def textField (j : Json) : Option (List Char) :=
  match jsGetField j (strL "text") with
  | some (.str s) => some s
  | _ => none

/-- The `message` field of a decoded error payload, read at its declared type
(`{ message: string }` in the wire contract). -/
def msgField (j : Json) : Option (List Char) :=
  match jsGetField j (strL "message") with
  | some (.str s) => some s
  | _ => none

/-! ## `streamLLMTextChunks` (async generator surface), streamingText.ts -/

/-- The message surfaced when `streamLLMTextChunks` meets an `event: error`
frame that carries a `data:` line.  The source wraps both `JSON.parse` and its
own deliberate `throw new Error(errorData.message || 'LLM stream error')` in a
single `try { ... } catch { throw new Error('Malformed stream error') }`, so
the deliberate throw is itself caught by the `catch`, and the error surfaced
to the caller is `'Malformed stream error'` on *both* paths. -/
def genErrorFrameMessage (after : List Char) : List Char :=
  match jsonParse (jsTrim after) with
  | some _errorData =>
    -- `throw new Error(errorData.message || 'LLM stream error')` — raised
    -- inside the same `try` block, hence replaced by the `catch` below:
    strL "Malformed stream error"
  | none =>
    -- `JSON.parse` threw a `SyntaxError`; the same `catch` applies:
    strL "Malformed stream error"

/-- What the body of the generator's frame loop does with one raw segment. -/
inductive GenAction where
  | skip
  | emit (t : List Char)
  | fail (msg : List Char)

/-- Classification of one delimiter-separated segment by the inline loop of
`streamLLMTextChunks` (lines 169–198 of streamingText.ts). -/
def genClassify (f : List Char) : GenAction :=
  let raw := jsTrim f
  if raw.isEmpty || startsWithList raw [':'] then .skip
  else if startsWithList raw (strL "event: error") then
    match splitOnFirst (strL "data:") raw with
    | some (_, after) => .fail (genErrorFrameMessage after)
    | none => .skip  -- no `data:` line: no throw; the `data:` branch below cannot match either
  else if startsWithList raw (strL "data:") then
    match jsonParse (jsTrim (raw.drop 5)) with
    | some chunk =>
      (match textField chunk with
       | some t => if t ≠ [] then .emit t else .skip  -- `if (chunk?.text) yield chunk.text`
       | none => .skip)
    | none => .skip  -- malformed chunk: logged and ignored
  else .skip

/-- Process a list of raw segments the way the generator's inner `while` loop
does: yield texts in order; a thrown stream error ends everything.  Returns
the yielded texts and (`some msg`) the error thrown, if any. -/
def genProcessFrames : List (List Char) → List (List Char) × Option (List Char)
  | [] => ([], none)
  | f :: fs =>
    match genClassify f with
    | .skip => genProcessFrames fs
    | .emit t =>
      let p := genProcessFrames fs
      (t :: p.1, p.2)
    | .fail m => ([], some m)

/-- The trailing-buffer flush of `streamLLMTextChunks` (lines 202–214): after
the stream ends, a leftover undelimited `data:` frame may yield once more. -/
def genFlush (buffer : List Char) : List (List Char) :=
  let raw := jsTrim buffer
  if raw ≠ [] && startsWithList raw (strL "data:") then
    match jsonParse (jsTrim (raw.drop 5)) with
    | some chunk =>
      (match textField chunk with
       | some t => if t ≠ [] then [t] else []
       | none => [])
    | none => []
  else []

/-- The full read loop of `streamLLMTextChunks`: feed each decoded read
increment into the buffer, process every complete frame, stop at a thrown
error, flush the trailing buffer when the stream ends.  Result: the yielded
text increments in order, and the thrown error if one occurred. -/
def genRun (buffer : List Char) : List (List Char) → List (List Char) × Option (List Char)
  | [] => (genFlush buffer, none)
  | r :: rs =>
    let e := extractFrames (buffer ++ r)
    match genProcessFrames e.1 with
    | (ys, some m) => (ys, some m)
    | (ys, none) =>
      let p := genRun e.2 rs
      (ys ++ p.1, p.2)

/-- `streamLLMTextChunks`, as a function of the decoded read increments of the
response body (the generator starts with an empty buffer). -/
def streamLLMTextChunks (reads : List (List Char)) : List (List Char) × Option (List Char) :=
  genRun [] reads

theorem genProcessFrames_append (fs gs : List (List Char)) :
    genProcessFrames (fs ++ gs) =
      (match genProcessFrames fs with
       | (ys, some m) => (ys, some m)
       | (ys, none) =>
         ((ys ++ (genProcessFrames gs).1, (genProcessFrames gs).2) :
           List (List Char) × Option (List Char))) := by
  induction fs with
  | nil => simp [genProcessFrames]
  | cons f fs ih =>
    simp only [List.cons_append, genProcessFrames, List.append_eq]
    cases genClassify f with
    | skip => simpa using ih
    | emit t =>
      simp only []
      rw [ih]
      cases h : genProcessFrames fs with
      | mk ys e =>
        cases e <;> simp
    | fail m => simp

/-- One-shot version of the generator run: what it does when the whole body
arrives as a single read. -/
def genFull (total : List Char) : List (List Char) × Option (List Char) :=
  let e := extractFrames total
  match genProcessFrames e.1 with
  | (ys, some m) => (ys, some m)
  | (ys, none) => (ys ++ genFlush e.2, none)

theorem genRun_eq_genFull (b : List Char)
    (hb : splitOnFirst frameDelim b = none) (rs : List (List Char)) :
    genRun b rs = genFull (b ++ rs.flatten) := by
  induction rs generalizing b with
  | nil =>
    rw [genRun, List.flatten_nil, List.append_nil, genFull, extractFrames_of_none hb]
    simp [genProcessFrames]
  | cons r rs ih =>
    rw [genRun, List.flatten_cons, ← List.append_assoc]
    simp only [genFull, extractFrames_append (b ++ r) rs.flatten, genProcessFrames_append]
    have hrest := extractFrames_rest_no_delim (b ++ r)
    rw [ih _ hrest]
    cases hp : genProcessFrames (extractFrames (b ++ r)).1 with
    | mk ys e =>
      cases e with
      | none =>
        simp only [genFull]
        cases hq : genProcessFrames (extractFrames ((extractFrames (b ++ r)).2 ++ rs.flatten)).1 with
        | mk ys' e' =>
          cases e' <;> simp
      | some m => simp

/-! ## `TextStreamer` and `exponentialJitterBackoff`, StreamingLLMTextChunks.svelte -/

/-- `exponentialJitterBackoff(attempt, base = 500, max = 10000)`.
`rand` stands for the value drawn by `Math.random()`, a real in `[0, 1)`;
delays are modelled as rationals. -/
def exponentialJitterBackoff (attempt : Nat) (rand : ℚ) (base max : ℚ) : ℚ :=
  let exponential := base * 2 ^ attempt
  let jitter := rand * base
  min (exponential + jitter) max

inductive TypingMode where
  | char
  | word
  | sentence
deriving DecidableEq

inductive StreamMode where
  | animated
  | stream
deriving DecidableEq

/-- `text.match(/\S+\s*/g) ?? []`: at each position, an unmatched character is
skipped (this happens exactly at leading whitespace); a match takes the maximal
run of non-whitespace followed by the maximal run of whitespace. -/
def tokenizeWordGo : Nat → List Char → List (List Char)
  | 0, _ => []
  | _ + 1, [] => []
  | fuel + 1, c :: cs =>
    if c.isWhitespace then tokenizeWordGo fuel cs
    else
      let w := (c :: cs).takeWhile (fun d => !d.isWhitespace)
      let r1 := (c :: cs).dropWhile (fun d => !d.isWhitespace)
      let sp := r1.takeWhile Char.isWhitespace
      let r2 := r1.dropWhile Char.isWhitespace
      (w ++ sp) :: tokenizeWordGo fuel r2

def tokenizeWord (text : List Char) : List (List Char) :=
  tokenizeWordGo text.length text

/-- A character the sentence regex treats as a sentence terminator. -/
def isTerm (d : Char) : Bool := d == '.' || d == '!' || d == '?'

/-- `text.match(/[^.!?]+[.!?]|\s+|.+$/g) ?? []`: at each position try, in
order, (1) a non-terminator run followed by one terminator, (2) a whitespace
run, (3) the rest of the input provided it is non-empty and contains no
newline (`.` does not match `\n` and `$` anchors at the end without `/m`);
if none matches, the regex engine advances one character (dropping it). -/
def tokenizeSentenceGo : Nat → List Char → List (List Char)
  | 0, _ => []
  | _ + 1, [] => []
  | fuel + 1, c :: cs =>
    let l := c :: cs
    let run := l.takeWhile (fun d => !isTerm d)
    match l.dropWhile (fun d => !isTerm d) with
    | t :: rest =>
      if run = [] then
        -- the head is a terminator: alternative (1) needs at least one
        -- non-terminator, so try (2) then (3)
        if c.isWhitespace then
          l.takeWhile Char.isWhitespace ::
            tokenizeSentenceGo fuel (l.dropWhile Char.isWhitespace)
        else if !l.contains '\n' then [l]
        else tokenizeSentenceGo fuel cs
      else (run ++ [t]) :: tokenizeSentenceGo fuel rest
    | [] =>
      -- no terminator anywhere: alternative (1) fails
      if c.isWhitespace then
        l.takeWhile Char.isWhitespace ::
          tokenizeSentenceGo fuel (l.dropWhile Char.isWhitespace)
      else if !l.contains '\n' then [l]
      else tokenizeSentenceGo fuel cs

def tokenizeSentence (text : List Char) : List (List Char) :=
  tokenizeSentenceGo text.length text

/-- `TextStreamer.tokenize` (lines 170–174): `char` is `text.split('')`,
`word` and `sentence` are the global regex matches above. -/
def tokenize (typingMode : TypingMode) (text : List Char) : List (List Char) :=
  match typingMode with
  | .char => text.map (fun ch => [ch])
  | .word => tokenizeWord text
  | .sentence => tokenizeSentence text

/-- The observable state of a `TextStreamer` session (reactive fields plus the
private queue/timer/controller). `timer` is whether a `setTimeout` is pending;
`aborted` is whether `controller.abort()` has been called. -/
structure TSState where
  response : List Char := []
  queue : List (List Char) := []
  timer : Bool := false
  loading : Bool := true
  error : Option (List Char) := none
  lastAbortReason : Option (List Char) := none
  aborted : Bool := false
deriving DecidableEq

/-- Observer callbacks a session invokes (`onToken`, `onComplete`, `onError`,
`onRetry`), in invocation order. -/
inductive TSEvent where
  | token (t : List Char)
  | complete
  | errorCb (m : List Char)
  | retryCb (attempt : Nat)
deriving DecidableEq

/-- `TextStreamer.processQueue` (lines 176–186): pop and render one token and
re-arm the timer, or — queue empty — clear the timer and fire `onComplete`. -/
def processQueue (s : TSState) : TSState × List TSEvent :=
  match s.queue with
  | t :: rest =>
    ({ s with queue := rest, response := s.response ++ t, timer := true }, [.token t])
  | [] => ({ s with timer := false }, [.complete])

/-- `TextStreamer.enqueue` (lines 188–191): push, and start the pump if no
timer is pending. -/
def enqueue (s : TSState) (t : List Char) : TSState × List TSEvent :=
  let s1 := { s with queue := s.queue ++ [t] }
  if s1.timer then (s1, []) else processQueue s1

def enqueueAll (s : TSState) (ts : List (List Char)) : TSState × List TSEvent :=
  ts.foldl (fun acc t =>
    let p := enqueue acc.1 t
    (p.1, acc.2 ++ p.2)) (s, [])

/-- A parsed chunk as returned by `parseSSEChunks`:
`{ type: 'data' | 'error', payload }`. -/
inductive TSChunk where
  | dataC (payload : Json)
  | errorC (payload : Json)

/-- Classification of one delimiter-separated segment by the body of the
`while` loop in `TextStreamer.parseSSEChunks` (lines 196–219); `none` for
segments that are skipped. -/
def tsClassifySeg (seg : List Char) : Option TSChunk :=
  let raw := jsTrim seg
  if raw.isEmpty || startsWithList raw [':'] then none
  else if startsWithList raw (strL "event: error") then
    match splitOnFirst (strL "data:") raw with
    | some (_, after) =>
      (match jsonParse (jsTrim after) with
       | some err => some (.errorC err)
       | none => some (.errorC (.obj [(strL "message", .str (strL "Malformed stream error"))])))
    | none => none
  else if startsWithList raw (strL "data:") then
    match jsonParse (jsTrim (raw.drop 5)) with
    | some chunk => some (.dataC chunk)
    | none => none  -- skip malformed chunk
  else none

/-- `TextStreamer.parseSSEChunks(buffer)` (lines 193–221).  Note that the
function receives the buffer *by value*: it consumes its own local copy but
returns only the chunk list, so the caller's buffer keeps the consumed
frames. -/
def parseSSEChunks (buffer : List Char) : List TSChunk :=
  ((extractFrames buffer).1.map tsClassifySeg).reduceOption

/-- `new Error(payload.message)` for an error chunk: the message string, or the
empty message when the payload has no string `message` field. -/
def tsThrownMessage (payload : Json) : List Char :=
  match msgField payload with
  | some m => m
  | none => []

/-- How one parsed chunk ends: continue the loop, `return` (a `done: true`
chunk), or throw (an error chunk). -/
inductive TSControl where
  | next
  | returnedDone
  | thrown (msg : List Char)

/-- The body of `for (const { type, payload } of chunks)` in
`TextStreamer.start` (lines 255–270). -/
def handleTSChunk (tm : TypingMode) (md : StreamMode) (s : TSState) (c : TSChunk) :
    TSState × List TSEvent × TSControl :=
  match c with
  | .errorC payload => (s, [], .thrown (tsThrownMessage payload))
  | .dataC payload =>
    let p : TSState × List TSEvent :=
      match textField payload with
      | some t =>
        if t ≠ [] then
          if md = .stream then ({ s with response := s.response ++ t }, [TSEvent.token t])
          else enqueueAll s (tokenize tm t)
        else (s, [])
      | none => (s, [])
    if jsTruthyOpt (jsGetField payload (strL "done")) then
      ({ p.1 with loading := false }, p.2 ++ [.complete], .returnedDone)
    else (p.1, p.2, .next)

def handleTSChunks (tm : TypingMode) (md : StreamMode) (s : TSState) :
    List TSChunk → TSState × List TSEvent × TSControl
  | [] => (s, [], .next)
  | c :: cs =>
    match handleTSChunk tm md s c with
    | (s', evs, .next) =>
      let p := handleTSChunks tm md s' cs
      (p.1, evs ++ p.2.1, p.2.2)
    | out => out

/-- `TextStreamer` retryability test (line 280–281):
`err.message.startsWith('HTTP 5') || err.message === 'No response body'`. -/
def tsRetryable (msg : List Char) : Bool :=
  startsWithList msg (strL "HTTP 5") || msg == strL "No response body"

/-- The `catch` branch of `TextStreamer.start` for a *thrown* (non-abort)
error (lines 274–298): schedule a retry when attempts remain and the error is
retryable (the retried attempt itself is outside this step), otherwise set the
error field, stop loading and fire `onError`. -/
def tsCatch (maxRetries retries : Nat) (s : TSState) (msg : List Char) :
    TSState × List TSEvent :=
  if retries < maxRetries && tsRetryable msg then
    (s, [.retryCb (retries + 1)])
  else
    ({ s with error := some msg, loading := false }, [.errorCb msg])

/-- The `catch` branch of `TextStreamer.start` on an `AbortError` (lines
275–278): record the reason and return — no callback, no retry. -/
def tsCatchAbort (s : TSState) : TSState × List TSEvent :=
  ({ s with lastAbortReason := some (strL "User cancelled") }, [])

/-- The read loop of `TextStreamer.start` (lines 249–271).  The buffer passed
to `parseSSEChunks` is `buffer += decoder.decode(value)` — and because
`parseSSEChunks` only mutates its local copy, the outer buffer is *never*
shortened; each iteration re-parses every frame received so far. -/
def tsReadLoop (tm : TypingMode) (md : StreamMode) (maxRetries retries : Nat)
    (s : TSState) (buffer : List Char) :
    List (List Char) → TSState × List TSEvent
  | [] => ({ s with loading := false }, [])
  | r :: rs =>
    let buffer' := buffer ++ r
    let chunks := parseSSEChunks buffer'
    match handleTSChunks tm md s chunks with
    | (s', evs, .next) =>
      let p := tsReadLoop tm md maxRetries retries s' buffer' rs
      (p.1, evs ++ p.2)
    | (s', evs, .returnedDone) => (s', evs)
    | (s', evs, .thrown msg) =>
      let p := tsCatch maxRetries retries s' msg
      (p.1, evs ++ p.2)

/-- Drain the pending `setTimeout` chain once no more reads arrive: each tick
runs `processQueue`; the pump stops when the timer is cleared.  The fuel is
always sufficient (`queue.length + 2`). -/
def drainTimer : Nat → TSState → TSState × List TSEvent
  | 0, s => (s, [])
  | fuel + 1, s =>
    if s.timer then
      let p := processQueue s
      let q := drainTimer fuel p.1
      (q.1, p.2 ++ q.2)
    else (s, [])

/-- One full `TextStreamer.start(query)` session over the given decoded read
increments, followed by the pending timer ticks (deterministic single-threaded
schedule: reads are processed first, then the timer drains — in the scenarios
proved below either no timer is armed or all frames arrive in one read). -/
def tsSessionRun (tm : TypingMode) (md : StreamMode) (maxRetries : Nat)
    (reads : List (List Char)) : TSState × List TSEvent :=
  let s0 : TSState := {}
  let p := tsReadLoop tm md maxRetries 0 s0 [] reads
  let q := drainTimer (p.1.queue.length + 2) p.1
  (q.1, p.2 ++ q.2)

/-- The text increments delivered to the observer (`onToken`) of a session. -/
def tsDeliveredTokens (reads : List (List Char)) (md : StreamMode) : List (List Char) :=
  (tsSessionRun .word md 3 reads).2.filterMap fun e =>
    match e with
    | .token t => some t
    | _ => none

/-- `TextStreamer.cancel` (lines 304–311): abort the controller, stop loading,
record the reason, clear the timer and empty the queue.  It emits no observer
callback. -/
def cancel (s : TSState) : TSState :=
  { s with
    aborted := true
    loading := false
    lastAbortReason := some (strL "Manually aborted")
    timer := false
    queue := [] }

/-! ## `streamLLMResponse` (callback surface), streamingText.ts -/

/-- Decimal digits of a natural number (`HTTP ${res.status}` rendering). -/
def decChars (n : Nat) : List Char :=
  if _h : n < 10 then [Nat.digitChar n]
  else decChars (n / 10) ++ [Nat.digitChar (n % 10)]
decreasing_by exact Nat.div_lt_self (by omega) (by omega)

/-- A thrown JS `Error`, as far as the retry logic inspects it:
`err.name` and `err.message`. -/
structure JSError where
  name : List Char
  message : List Char
deriving DecidableEq

/-- The `AbortError` produced when `fetch`/`read` is aborted by the signal. -/
def abortError : JSError :=
  ⟨strL "AbortError", strL "The user aborted a request."⟩

/-- `throw new Error(`HTTP ${res.status}`)` for a non-ok response. -/
def httpError (status : Nat) : JSError :=
  ⟨strL "Error", strL "HTTP " ++ decChars status⟩

/-- `throw new Error('No response body')`. -/
def noBodyError : JSError :=
  ⟨strL "Error", strL "No response body"⟩

/-- `streamLLMResponse` retryability test (lines 101–104):
`err.name === 'AbortError' || err.message === 'No response body' ||
err.message.startsWith('HTTP 5')`. -/
def llmIsRetryable (e : JSError) : Bool :=
  e.name == strL "AbortError" ||
  e.message == strL "No response body" ||
  startsWithList e.message (strL "HTTP 5")

/-- The backoff computed by `streamLLMResponse` (lines 107–108): after
`retryCount++`, `backoff = retryDelay * 2 ** retryCount`; so the failure of
attempt `n` (0-indexed) sleeps `retryDelay * 2 ^ (n + 1)`.  No jitter is
added and no maximum is applied. -/
def llmBackoff (retryDelay : ℚ) (retryCountAfterIncrement : Nat) : ℚ :=
  retryDelay * 2 ^ retryCountAfterIncrement

/-- Callbacks `streamLLMResponse` invokes while processing frames. -/
inductive LLMEvent where
  | chunkCb (j : Json)
  | tokenCb (c : Char)
  | errorCb (m : List Char)
  | doneCb

/-- `err.message || 'Stream error'` on a parsed error payload (read at the
declared type `{ message: string }`). -/
def llmErrMessage (err : Json) : List Char :=
  match msgField err with
  | some m => if m ≠ [] then m else strL "Stream error"
  | none => strL "Stream error"

/-- What the body of the frame loop of `streamLLMResponse.attemptStream`
(lines 58–95) does with one raw segment. -/
inductive LLMAction where
  | skip
  | emit (evs : List LLMEvent)
  | halt (evs : List LLMEvent)

/-- Classification of one delimiter-separated segment by
`streamLLMResponse.attemptStream`.  An `event: error` segment always
`return`s, with an `onError` callback only when it carries a `data:` line;
a `data:` segment fires `onChunk`, then `onToken` per character of a truthy
`text` (the `onToken` observer is modelled as provided; its `elapsed` timing
argument is not modelled), then `onDone` and `return` on a truthy `done`. -/
def llmClassify (f : List Char) : LLMAction :=
  let raw := jsTrim f
  if raw.isEmpty || startsWithList raw [':'] then .skip
  else if startsWithList raw (strL "event: error") then
    match splitOnFirst (strL "data:") raw with
    | some (_, after) =>
      (match jsonParse (jsTrim after) with
       | some err => .halt [.errorCb (llmErrMessage err)]
       | none => .halt [.errorCb (strL "Stream error (malformed JSON)")])
    | none => .halt []  -- `return` without any callback
  else if startsWithList raw (strL "data:") then
    match jsonParse (jsTrim (raw.drop 5)) with
    | some chunk =>
      let evs := LLMEvent.chunkCb chunk ::
        (match textField chunk with
         | some t => if t ≠ [] then t.map LLMEvent.tokenCb else []
         | none => [])
      if jsTruthyOpt (jsGetField chunk (strL "done")) then .halt (evs ++ [.doneCb])
      else .emit evs
    | none => .skip  -- ignore malformed chunks
  else .skip

/-- How an attempt's frame processing ended: an explicit `return`, or the
frame list exhausted (the reader would continue / reach end of stream). -/
inductive LLMEnd where
  | returned
  | ended
deriving DecidableEq

/-- Process raw segments the way one attempt of `streamLLMResponse` does. -/
def llmProcessFrames : List (List Char) → List LLMEvent × LLMEnd
  | [] => ([], .ended)
  | f :: fs =>
    match llmClassify f with
    | .skip => llmProcessFrames fs
    | .emit evs =>
      let p := llmProcessFrames fs
      (evs ++ p.1, p.2)
    | .halt evs => (evs, .returned)

/-- All callbacks of one attempt whose stream delivered the given segments:
when the loop was never `return`ed from, the stream end fires `onDone`
(line 99). -/
def llmAttemptEvents (frames : List (List Char)) : List LLMEvent :=
  match llmProcessFrames frames with
  | (evs, .ended) => evs ++ [.doneCb]
  | (evs, .returned) => evs

/-! ## Helper lemmas about segment classification -/

theorem startsWithList_head {raw : List Char} {p : Char} {ps : List Char}
    (h : startsWithList raw (p :: ps) = true) :
    ∃ tl, raw = p :: tl ∧ startsWithList tl ps = true := by
  cases raw with
  | nil => simp [startsWithList] at h
  | cons c cs =>
    simp only [startsWithList, Bool.and_eq_true, beq_iff_eq] at h
    exact ⟨cs, by rw [h.1], h.2⟩

theorem startsWithList_append_same (a x p : List Char) :
    startsWithList (a ++ x) (a ++ p) = startsWithList x p := by
  induction a with
  | nil => rfl
  | cons c cs ih => simp [startsWithList, ih]

/-- A segment whose trimmed form starts with `data:` is neither empty, nor a
comment, nor an `event: error` frame. -/
theorem data_seg_prelim {raw : List Char}
    (h : startsWithList raw (strL "data:") = true) :
    raw.isEmpty = false ∧ startsWithList raw [':'] = false ∧
      startsWithList raw (strL "event: error") = false := by
  obtain ⟨tl, hr, _⟩ := @startsWithList_head raw 'd' (strL "ata:") h
  subst hr
  refine ⟨rfl, ?_, ?_⟩ <;> simp [startsWithList, strL]

/-- A segment whose trimmed form starts with `event: error` is neither empty
nor a comment. -/
theorem err_seg_prelim {raw : List Char}
    (h : startsWithList raw (strL "event: error") = true) :
    raw.isEmpty = false ∧ startsWithList raw [':'] = false := by
  obtain ⟨tl, hr, _⟩ := @startsWithList_head raw 'e' (strL "vent: error") h
  subst hr
  exact ⟨rfl, by simp [startsWithList]⟩

theorem genClassify_data_some {seg : List Char} {j : Json}
    (hd : startsWithList (jsTrim seg) (strL "data:") = true)
    (hp : jsonParse (jsTrim ((jsTrim seg).drop 5)) = some j) :
    genClassify seg =
      (match textField j with
       | some t => if t ≠ [] then .emit t else .skip
       | none => .skip) := by
  obtain ⟨h1, h2, h3⟩ := data_seg_prelim hd
  simp only [genClassify, h1, h2, h3, hd, hp, Bool.or_self, Bool.false_eq_true,
    if_false, if_true]

theorem genClassify_data_none {seg : List Char}
    (hd : startsWithList (jsTrim seg) (strL "data:") = true)
    (hp : jsonParse (jsTrim ((jsTrim seg).drop 5)) = none) :
    genClassify seg = .skip := by
  obtain ⟨h1, h2, h3⟩ := data_seg_prelim hd
  simp only [genClassify, h1, h2, h3, hd, hp, Bool.or_self, Bool.false_eq_true,
    if_false, if_true]

theorem tsClassifySeg_data_some {seg : List Char} {j : Json}
    (hd : startsWithList (jsTrim seg) (strL "data:") = true)
    (hp : jsonParse (jsTrim ((jsTrim seg).drop 5)) = some j) :
    tsClassifySeg seg = some (.dataC j) := by
  obtain ⟨h1, h2, h3⟩ := data_seg_prelim hd
  simp only [tsClassifySeg, h1, h2, h3, hd, hp, Bool.or_self, Bool.false_eq_true,
    if_false, if_true]

theorem tsClassifySeg_data_none {seg : List Char}
    (hd : startsWithList (jsTrim seg) (strL "data:") = true)
    (hp : jsonParse (jsTrim ((jsTrim seg).drop 5)) = none) :
    tsClassifySeg seg = none := by
  obtain ⟨h1, h2, h3⟩ := data_seg_prelim hd
  simp only [tsClassifySeg, h1, h2, h3, hd, hp, Bool.or_self, Bool.false_eq_true,
    if_false, if_true]

theorem llmClassify_err_no_data {f : List Char}
    (he : startsWithList (jsTrim f) (strL "event: error") = true)
    (hnd : splitOnFirst (strL "data:") (jsTrim f) = none) :
    llmClassify f = .halt [] := by
  obtain ⟨h1, h2⟩ := err_seg_prelim he
  simp only [llmClassify, h1, h2, he, hnd, Bool.or_self, Bool.false_eq_true,
    if_false, if_true]

/-! ## Concrete wire-format scenarios used by the claims -/

/-- `data: {"text":"A"}` followed by a blank line. -/
def readA : List Char := strL "data: \x7b\"text\":\"A\"\x7d\n\n"

/-- `data: {"text":"B"}` followed by a blank line. -/
def readB : List Char := strL "data: \x7b\"text\":\"B\"\x7d\n\n"

/-- The three happy-path frames `data: {"text":"Hello"}`,
`data: {"text":" world"}`, `data: {"done":true}`, each followed by a blank
line, arriving in a single read. -/
def happyRead : List Char :=
  strL "data: \x7b\"text\":\"Hello\"\x7d\n\ndata: \x7b\"text\":\" world\"\x7d\n\ndata: \x7b\"done\":true\x7d\n\n"

/-- The upstream-error frame `event: error` / `data: {"message":"rate limited"}`
followed by a blank line. -/
def errRead : List Char := strL "event: error\ndata: \x7b\"message\":\"rate limited\"\x7d\n\n"

/-! ## Claims -/

/-- C1: Split-invariance of frame parsing.  (1) For the inline parsing loop of
`streamLLMTextChunks`, every way of splitting the input into read increments
yields exactly the outcome of delivering the whole text in a single read —
the claim holds on this surface.  (2)–(3) For `TextStreamer.start` the claim
fails: `parseSSEChunks` consumes only its local copy of the buffer, so the
caller re-parses already-delivered frames on every subsequent read; splitting
the two-frame input `readA ++ readB` at the frame boundary delivers the text
`A` twice (`[A, A, B]`), while the single read delivers `[A, B]`. -/
theorem C1_frame_parse_split_invariance :
    (∀ reads : List (List Char),
      streamLLMTextChunks reads = streamLLMTextChunks [reads.flatten])
    ∧ tsDeliveredTokens [readA, readB] .stream = [strL "A", strL "A", strL "B"]
    ∧ tsDeliveredTokens [readA ++ readB] .stream = [strL "A", strL "B"] := by
  refine ⟨fun reads => ?_, by decide, by decide⟩
  rw [streamLLMTextChunks, streamLLMTextChunks,
    genRun_eq_genFull [] rfl, genRun_eq_genFull [] rfl]
  simp

/-- C2: Happy-path animated session.  The claim (exactly one completion
callback, fired only after the queue drains, and accumulated text
`"Hello world"`) fails on the code: processing the three frames in one read
fires `onComplete` immediately at the `done` frame while `"world"` is still
queued, and `processQueue` fires `onComplete` a second time when the queue
drains; moreover the word tokenizer drops the leading space of `" world"`,
so the final response is `"Helloworld"`. -/
theorem C2_happy_path_double_completion :
    (tsSessionRun .word .animated 3 [happyRead]).2 =
      [TSEvent.token (strL "Hello"), TSEvent.complete,
       TSEvent.token (strL "world"), TSEvent.complete]
    ∧ (tsSessionRun .word .animated 3 [happyRead]).1.response = strL "Helloworld" := by
  constructor <;> decide

/-- C3: Tokenization round-trip.  Concatenating tokens reproduces the text in
`char` mode for every input, but the claim fails in general: in `word` mode
the regex `/\S+\s*/g` never matches leading whitespace, so `" world"`
tokenizes to `["world"]` and the space is dropped; in `sentence` mode the
regex `/[^.!?]+[.!?]|\s+|.+$/g` fails to match at a non-whitespace position
whose remainder contains a newline and the engine drops that character, so
`"a\nb"` tokenizes to `["\n", "b"]`, losing the `"a"`. -/
theorem C3_tokenize_roundtrip :
    (∀ text : List Char, (tokenize .char text).flatten = text)
    ∧ (tokenize .word (strL " world")).flatten = strL "world"
    ∧ (tokenize .word (strL " world")).flatten ≠ strL " world"
    ∧ (tokenize .sentence (strL "a\nb")).flatten = strL "\nb" := by
  refine ⟨fun text => ?_, by decide, by decide, by decide⟩
  induction text with
  | nil => rfl
  | cons c cs ih => simp [tokenize] at ih ⊢; exact ih

/-- C5: Upstream error frame `event: error` / `data: {"message":"rate limited"}`.
`TextStreamer.start` and `streamLLMResponse` do terminate with the message
`"rate limited"` and zero retries, but the claim fails on
`streamLLMTextChunks`: its deliberate
`throw new Error(errorData.message || ...)` sits inside the same `try` whose
`catch` throws `'Malformed stream error'`, so the caller-visible message is
`"Malformed stream error"` instead of the server's message. -/
theorem C5_upstream_error_message :
    streamLLMTextChunks [errRead] = ([], some (strL "Malformed stream error"))
    ∧ (tsSessionRun .word .animated 3 [errRead]).1.error = some (strL "rate limited")
    ∧ (tsSessionRun .word .animated 3 [errRead]).2 = [TSEvent.errorCb (strL "rate limited")]
    ∧ llmAttemptEvents (extractFrames errRead).1 = [LLMEvent.errorCb (strL "rate limited")]
    ∧ (llmProcessFrames (extractFrames errRead).1).2 = LLMEnd.returned := by
  refine ⟨by decide, by decide, by decide, by rfl, by decide⟩

theorem decChars_three {n : Nat} (h1 : 100 ≤ n) (h2 : n ≤ 999) :
    decChars n =
      [Nat.digitChar (n / 100), Nat.digitChar (n / 10 % 10), Nat.digitChar (n % 10)] := by
  have e1 : decChars n = decChars (n / 10) ++ [Nat.digitChar (n % 10)] := by
    rw [decChars.eq_def, dif_neg (by omega)]
  have e2 : decChars (n / 10) = decChars (n / 10 / 10) ++ [Nat.digitChar (n / 10 % 10)] := by
    rw [decChars.eq_def, dif_neg (by omega)]
  have e3 : decChars (n / 10 / 10) = [Nat.digitChar (n / 10 / 10)] := by
    rw [decChars.eq_def, dif_pos (by omega)]
  have e4 : n / 10 / 10 = n / 100 := by omega
  rw [e1, e2, e3, e4]
  rfl

theorem digitChar_eq_five {k : Nat} (hk : k < 10) :
    (Nat.digitChar k == '5') = decide (k = 5) := by
  interval_cases k <;> decide

/-- A message of the form `HTTP <status>` (three-digit status) is classified
retryable by both retry predicates exactly when the status is in the 5xx
range. -/
theorem http_msg_retryable {st : Nat} (h1 : 100 ≤ st) (h2 : st ≤ 599) :
    startsWithList (strL "HTTP " ++ decChars st) (strL "HTTP 5") = decide (500 ≤ st) := by
  have hs : strL "HTTP 5" = strL "HTTP " ++ ['5'] := rfl
  rw [hs, startsWithList_append_same, decChars_three h1 (by omega)]
  have : startsWithList
      [Nat.digitChar (st / 100), Nat.digitChar (st / 10 % 10), Nat.digitChar (st % 10)] ['5'] =
      (Nat.digitChar (st / 100) == '5') := by
    simp [startsWithList, startsWithList_nil]
  rw [this, digitChar_eq_five (by omega)]
  simp only [decide_eq_decide]
  omega

theorem http_msg_ne_nobody (st : Nat) :
    ((strL "HTTP " ++ decChars st : List Char) == strL "No response body") = false := by
  have hH : strL "HTTP " = 'H' :: strL "TTP " := rfl
  have hN : strL "No response body" = 'N' :: strL "o response body" := rfl
  rw [hH, hN]
  by_contra hcontra
  simp only [Bool.not_eq_false, beq_iff_eq, List.cons_append, List.cons.injEq] at hcontra
  exact absurd hcontra.1 (by decide)

/-- C4: Retryability policy.  The claim holds for `TextStreamer.start` — an
`AbortError` returns before the retry test and the test itself accepts exactly
`HTTP 5xx` and `No response body` — but fails on `streamLLMResponse`, whose
`isRetryable` additionally classifies `err.name === 'AbortError'` (a
cancellation) as retryable, so a cancelled attempt with retries remaining is
retried. -/
theorem C4_retryability_policy :
    llmIsRetryable abortError = true
    ∧ (∀ st, 100 ≤ st → st ≤ 599 →
        (llmIsRetryable (httpError st) = true ↔ 500 ≤ st))
    ∧ llmIsRetryable noBodyError = true
    ∧ (∀ st, 100 ≤ st → st ≤ 599 →
        (tsRetryable (strL "HTTP " ++ decChars st) = true ↔ 500 ≤ st))
    ∧ tsRetryable (strL "No response body") = true
    ∧ (∀ msg, tsRetryable msg = true →
        startsWithList msg (strL "HTTP 5") = true ∨ msg = strL "No response body")
    ∧ (∀ s, tsCatchAbort s = ({ s with lastAbortReason := some (strL "User cancelled") }, [])) := by
  refine ⟨by decide, ?_, by decide, ?_, by decide, ?_, fun s => rfl⟩
  · intro st h1 h2
    have hname : ((strL "Error" : List Char) == strL "AbortError") = false := by decide
    have hmsg := http_msg_ne_nobody st
    simp only [llmIsRetryable, httpError, hname, hmsg, Bool.false_or,
      http_msg_retryable h1 h2, decide_eq_true_eq]
  · intro st h1 h2
    simp only [tsRetryable, http_msg_ne_nobody st, Bool.or_false,
      http_msg_retryable h1 h2, decide_eq_true_eq]
  · intro msg h
    simp only [tsRetryable, Bool.or_eq_true, beq_iff_eq] at h
    exact h

/-- Witness for C4 at concrete inputs: an aborted `streamLLMResponse` attempt
is classified retryable (the divergence), `HTTP 503` is retryable and
`HTTP 404` is not on both surfaces. -/
theorem C4_retryability_policy_witness :
    llmIsRetryable abortError = true
    ∧ (llmIsRetryable (httpError 503) = true ↔ 500 ≤ 503)
    ∧ (llmIsRetryable (httpError 404) = true ↔ 500 ≤ 404)
    ∧ (tsRetryable (strL "HTTP " ++ decChars 503) = true ↔ 500 ≤ 503)
    ∧ (tsRetryable (strL "HTTP " ++ decChars 404) = true ↔ 500 ≤ 404) :=
  ⟨C4_retryability_policy.1,
   C4_retryability_policy.2.1 503 (by decide) (by decide),
   C4_retryability_policy.2.1 404 (by decide) (by decide),
   C4_retryability_policy.2.2.2.1 503 (by decide) (by decide),
   C4_retryability_policy.2.2.2.1 404 (by decide) (by decide)⟩

/-- C6 counterexample: the claim asserts that for both surfaces the delay for
attempt `n` equals `min(base·2^n + jitter, max)` and lies in
`[base·2^n, min(base·2^n + base, max)]`.  `streamLLMResponse` (defaults
`retryDelay = 500`, no configured maximum) computes `500 · 2^(n+1)` for
attempt `n`; at `n = 1` that is `2000`, outside `[1000, min(1500, 10000)]`. -/
theorem C6_llm_backoff_outside_interval :
    ¬((500 : ℚ) * 2 ^ 1 ≤ llmBackoff 500 (1 + 1)
      ∧ llmBackoff 500 (1 + 1) ≤ min ((500 : ℚ) * 2 ^ 1 + 500) 10000) := by
  intro h
  have := h.2
  rw [llmBackoff] at this
  norm_num at this

/-- C6 (amended): `exponentialJitterBackoff` — the only backoff
`TextStreamer.start` uses — computes `min(base·2^attempt + rand·base, max)`
with `rand ∈ [0, 1)` (so jitter in `[0, base)`), hence the delay lies in
`[min(base·2^attempt, max), min(base·2^attempt + base, max)]`;
`streamLLMResponse` instead sleeps exactly `retryDelay · 2^(n+1)` after the
failure of attempt `n` — no jitter and no cap — which exceeds the claimed
upper bound `min(base·2^n + base, max)` for every attempt `n ≥ 1` at the
default `retryDelay = base = 500`, `max = 10000`. -/
theorem C6_backoff_amended :
    (∀ (attempt : Nat) (rand base maxDelay : ℚ), 0 < base → 0 ≤ rand → rand < 1 →
      min (base * 2 ^ attempt) maxDelay ≤ exponentialJitterBackoff attempt rand base maxDelay
      ∧ exponentialJitterBackoff attempt rand base maxDelay ≤
          min (base * 2 ^ attempt + base) maxDelay)
    ∧ (∀ retryDelay : ℚ, ∀ n : Nat,
        llmBackoff retryDelay (n + 1) = retryDelay * 2 ^ (n + 1))
    ∧ (∀ n : Nat, 1 ≤ n →
        min ((500 : ℚ) * 2 ^ n + 500) 10000 < llmBackoff 500 (n + 1)) := by
  refine ⟨?_, fun retryDelay n => rfl, ?_⟩
  · intro attempt rand base maxDelay hb hr0 hr1
    rw [exponentialJitterBackoff]
    constructor
    · exact min_le_min (le_add_of_nonneg_right (mul_nonneg hr0 hb.le)) (le_refl _)
    · refine min_le_min ?_ (le_refl _)
      have : rand * base ≤ 1 * base := mul_le_mul_of_nonneg_right hr1.le hb.le
      linarith
  · intro n hn
    rw [llmBackoff]
    have h2 : (1 : ℚ) < 2 ^ n := one_lt_pow₀ (by norm_num) (by omega)
    apply min_lt_iff.mpr
    left
    have : (2 : ℚ) ^ (n + 1) = 2 * 2 ^ n := by ring
    rw [this]
    nlinarith

/-- Witness for C6 at concrete inputs (`attempt = 0`, `rand = 0`, the default
`base = 500`, `max = 10000`, and `n = 1` for the `streamLLMResponse` part). -/
theorem C6_backoff_amended_witness :
    (min ((500 : ℚ) * 2 ^ 0) 10000 ≤ exponentialJitterBackoff 0 0 500 10000
      ∧ exponentialJitterBackoff 0 0 500 10000 ≤ min ((500 : ℚ) * 2 ^ 0 + 500) 10000)
    ∧ llmBackoff 500 (1 + 1) = (500 : ℚ) * 2 ^ (1 + 1)
    ∧ min ((500 : ℚ) * 2 ^ 1 + 500) 10000 < llmBackoff 500 (1 + 1) :=
  ⟨C6_backoff_amended.1 0 0 500 10000 (by norm_num) (le_refl _) (by norm_num),
   C6_backoff_amended.2.1 500 1,
   C6_backoff_amended.2.2 1 (le_refl _)⟩

/-- C8: `cancel()` is idempotent and silent.  Cancelling any session state —
including one already terminal — yields the cancelled configuration
(controller aborted, loading false, timer cleared, queue empty), cancelling
again changes nothing, `cancel` itself emits no observer callback, the timer
pump does nothing after cancellation (so no further `onToken`/`onComplete`),
and the `AbortError` the aborted fetch/read raises is swallowed by the catch
with no callback (so no `onError`). -/
theorem C8_cancel_idempotent :
    (∀ s : TSState, cancel (cancel s) = cancel s)
    ∧ (∀ s : TSState, (cancel s).loading = false ∧ (cancel s).timer = false
        ∧ (cancel s).queue = [] ∧ (cancel s).aborted = true)
    ∧ (∀ (fuel : Nat) (s : TSState), drainTimer fuel (cancel s) = (cancel s, []))
    ∧ (∀ s : TSState, (tsCatchAbort s).2 = []) := by
  refine ⟨fun s => rfl, fun s => ⟨rfl, rfl, rfl, rfl⟩, ?_, fun s => rfl⟩
  intro fuel s
  cases fuel with
  | zero => rfl
  | succ f => simp [drainTimer, cancel]

/-- C10: In `streamLLMResponse`, an `event: error` frame with no `data:` line
makes the attempt `return` immediately: no callback at all is invoked for the
frame (no `onError`), the remaining frames are never processed, and since the
loop was exited by `return`, the end-of-stream `onDone` never fires either. -/
theorem C10_error_frame_without_data :
    ∀ (f : List Char) (rest : List (List Char)),
      startsWithList (jsTrim f) (strL "event: error") = true →
      splitOnFirst (strL "data:") (jsTrim f) = none →
      llmProcessFrames (f :: rest) = ([], LLMEnd.returned)
      ∧ llmAttemptEvents (f :: rest) = [] := by
  intro f rest he hnd
  have hc := llmClassify_err_no_data he hnd
  have h1 : llmProcessFrames (f :: rest) = ([], LLMEnd.returned) := by
    simp [llmProcessFrames, hc]
  exact ⟨h1, by simp [llmAttemptEvents, h1]⟩

/-- Witness for C10: the bare frame `event: error` followed by a further data
frame that is consequently never delivered. -/
theorem C10_error_frame_without_data_witness :
    startsWithList (jsTrim (strL "event: error")) (strL "event: error") = true
    ∧ splitOnFirst (strL "data:") (jsTrim (strL "event: error")) = none
    ∧ llmProcessFrames [strL "event: error", strL "data: \x7b\"text\":\"x\"\x7d"] =
        ([], LLMEnd.returned)
    ∧ llmAttemptEvents [strL "event: error", strL "data: \x7b\"text\":\"x\"\x7d"] = [] := by
  have h := C10_error_frame_without_data (strL "event: error")
    [strL "data: \x7b\"text\":\"x\"\x7d"] (by decide) (by decide)
  exact ⟨by decide, by decide, h.1, h.2⟩

theorem genClassify_emit_ne {f t : List Char} (h : genClassify f = .emit t) :
    t ≠ [] := by
  simp only [genClassify] at h
  repeat' split at h
  all_goals simp_all

theorem genFlush_mem_ne {b y : List Char} (h : y ∈ genFlush b) : y ≠ [] := by
  simp only [genFlush] at h
  repeat' split at h
  all_goals simp_all

theorem genProcessFrames_mem_ne :
    ∀ (fs : List (List Char)) (y : List Char),
      y ∈ (genProcessFrames fs).1 → y ≠ [] := by
  intro fs
  induction fs with
  | nil => intro y h; exact absurd h (by simp [genProcessFrames])
  | cons f fs ih =>
    intro y h
    rw [genProcessFrames] at h
    cases hc : genClassify f with
    | skip => rw [hc] at h; exact ih y h
    | emit t =>
      rw [hc] at h
      rcases List.mem_cons.mp h with h' | h'
      · subst h'; exact genClassify_emit_ne hc
      · exact ih y h'
    | fail m => rw [hc] at h; exact absurd h (by simp)

theorem genRun_mem_ne :
    ∀ (reads : List (List Char)) (buffer y : List Char),
      y ∈ (genRun buffer reads).1 → y ≠ [] := by
  intro reads
  induction reads with
  | nil => intro buffer y h; exact genFlush_mem_ne h
  | cons r rs ih =>
    intro buffer y h
    rw [genRun] at h
    cases hp : genProcessFrames (extractFrames (buffer ++ r)).1 with
    | mk ys eo =>
      cases eo with
      | some m =>
        rw [hp] at h
        exact genProcessFrames_mem_ne _ y (by rw [hp]; exact h)
      | none =>
        rw [hp] at h
        rcases List.mem_append.mp h with h' | h'
        · exact genProcessFrames_mem_ne _ y (by rw [hp]; exact h')
        · exact ih _ y h'

/-- C9: every text increment yielded by `streamLLMTextChunks` — including one
recovered by the trailing-buffer flush — is a non-empty string: a data frame
whose payload has an empty, absent or otherwise falsy `text` field (the field
is read at its declared type `text?: string`) yields nothing, because of the
`if (chunk?.text)` guards at both yield sites. -/
theorem C9_yields_nonempty :
    ∀ (reads : List (List Char)) (y : List Char),
      y ∈ (streamLLMTextChunks reads).1 → y ≠ [] := by
  intro reads y h
  exact genRun_mem_ne reads [] y h

/-- Witness for C9: a stream with a non-empty and an empty text payload yields
exactly the non-empty one. -/
theorem C9_yields_nonempty_witness :
    (streamLLMTextChunks [strL "data: \x7b\"text\":\"Hi\"\x7d\n\ndata: \x7b\"text\":\"\"\x7d\n\n"]).1 =
      [strL "Hi"]
    ∧ strL "Hi" ≠ [] := by
  refine ⟨by decide, ?_⟩
  exact C9_yields_nonempty
    [strL "data: \x7b\"text\":\"Hi\"\x7d\n\ndata: \x7b\"text\":\"\"\x7d\n\n"]
    (strL "Hi") (by decide)

/-- C7: malformed-frame resilience.  For any three data segments whose middle
payload fails `JSON.parse` while the outer two parse to chunks with non-empty
text (and no `done` flag), the generator loop yields exactly the two texts in
order with no thrown error; `TextStreamer.parseSSEChunks` returns exactly the
two data chunks, silently dropping the corrupt frame; and the `start` loop
delivers both texts (stream mode shown) and keeps the loop in its normal
continuation — no error surfaces. -/
theorem C7_malformed_frame_dropped :
    ∀ (s1 sb s2 t1 t2 : List Char) (j1 j2 : Json),
      startsWithList (jsTrim s1) (strL "data:") = true →
      jsonParse (jsTrim ((jsTrim s1).drop 5)) = some j1 →
      textField j1 = some t1 → t1 ≠ [] →
      jsTruthyOpt (jsGetField j1 (strL "done")) = false →
      startsWithList (jsTrim sb) (strL "data:") = true →
      jsonParse (jsTrim ((jsTrim sb).drop 5)) = none →
      startsWithList (jsTrim s2) (strL "data:") = true →
      jsonParse (jsTrim ((jsTrim s2).drop 5)) = some j2 →
      textField j2 = some t2 → t2 ≠ [] →
      jsTruthyOpt (jsGetField j2 (strL "done")) = false →
      genProcessFrames [s1, sb, s2] = ([t1, t2], none)
      ∧ ([s1, sb, s2].map tsClassifySeg).reduceOption =
          [TSChunk.dataC j1, TSChunk.dataC j2]
      ∧ handleTSChunks .word .stream {} [TSChunk.dataC j1, TSChunk.dataC j2] =
          ({ response := t1 ++ t2 }, [TSEvent.token t1, TSEvent.token t2],
            TSControl.next) := by
  intro s1 sb s2 t1 t2 j1 j2 hd1 hp1 ht1 hne1 hdone1 hdb hpb hd2 hp2 ht2 hne2 hdone2
  have hc1 : genClassify s1 = .emit t1 := by
    rw [genClassify_data_some hd1 hp1, ht1]
    simp [hne1]
  have hcb : genClassify sb = .skip := genClassify_data_none hdb hpb
  have hc2 : genClassify s2 = .emit t2 := by
    rw [genClassify_data_some hd2 hp2, ht2]
    simp [hne2]
  refine ⟨?_, ?_, ?_⟩
  · simp [genProcessFrames, hc1, hcb, hc2]
  · simp [tsClassifySeg_data_some hd1 hp1, tsClassifySeg_data_none hdb hpb,
      tsClassifySeg_data_some hd2 hp2]
  · simp [handleTSChunks, handleTSChunk, ht1, ht2, hne1, hne2, hdone1, hdone2]

/-- Witness for C7: `data: {"text":"A"}`, `data: {oops` (unparsable JSON),
`data: {"text":"B"}`. -/
theorem C7_malformed_frame_dropped_witness :
    genProcessFrames
      [strL "data: \x7b\"text\":\"A\"\x7d", strL "data: \x7boops",
       strL "data: \x7b\"text\":\"B\"\x7d"] = ([strL "A", strL "B"], none)
    ∧ ([strL "data: \x7b\"text\":\"A\"\x7d", strL "data: \x7boops",
        strL "data: \x7b\"text\":\"B\"\x7d"].map tsClassifySeg).reduceOption =
        [TSChunk.dataC (Json.obj [(strL "text", Json.str (strL "A"))]),
         TSChunk.dataC (Json.obj [(strL "text", Json.str (strL "B"))])]
    ∧ handleTSChunks .word .stream {}
        [TSChunk.dataC (Json.obj [(strL "text", Json.str (strL "A"))]),
         TSChunk.dataC (Json.obj [(strL "text", Json.str (strL "B"))])] =
        ({ response := strL "A" ++ strL "B" },
         [TSEvent.token (strL "A"), TSEvent.token (strL "B")], TSControl.next) :=
  C7_malformed_frame_dropped
    (strL "data: \x7b\"text\":\"A\"\x7d") (strL "data: \x7boops")
    (strL "data: \x7b\"text\":\"B\"\x7d") (strL "A") (strL "B")
    (Json.obj [(strL "text", Json.str (strL "A"))])
    (Json.obj [(strL "text", Json.str (strL "B"))])
    (by decide) (by rfl) (by rfl) (by decide) (by rfl)
    (by decide) (by rfl)
    (by decide) (by rfl) (by rfl) (by decide) (by rfl)
